import Mathlib

/-!
Verification of the DragonOS virtual-memory core: a shallow embedding of
`src/kernel/src/mm/page.rs` and `src/kernel/src/mm/allocator/page_frame.rs`,
together with theorems settling the specification claims about the page
mapper, page tables, page-frame iterators and the alignment helpers.

Machine integers (`usize`) are modelled as `Nat`; all values that the code
manipulates stay below `2 ^ 64`, and the one place where Rust wrapping
arithmetic matters (`round_up_to_page_size`) takes an explicit `% 2 ^ 64`.
Raw page-table memory (`MMArch::read` / `MMArch::write`) is modelled as a
total function from virtual byte addresses to machine words, and the frame
allocator as a bump allocator recording its usage.
-/

namespace DragonOS

/-- Modelled from the spec: the architecture description (spec §6) is an
external collaborator, not part of the repository snapshot.  The constants
follow the spec's concrete scenario values (`PAGE_SIZE = 4096`,
`PAGE_LEVELS = 4`, `PAGE_ENTRY_NUM = 512`) with the x86-64-style flag
encoding the spec describes (a positive read/write bit and a negative
no-execute bit). -/
def PAGE_SHIFT : Nat := 12

def PAGE_SIZE : Nat := 4096

def PAGE_ENTRY_SHIFT : Nat := 9

def PAGE_ENTRY_NUM : Nat := 512

def PAGE_ENTRY_MASK : Nat := 511

def PAGE_ENTRY_SIZE : Nat := 8

def PAGE_LEVELS : Nat := 4

def PAGE_ADDRESS_MASK : Nat := 0x0000fffffffff000

/-- Bitwise complement of a 64-bit machine word (Rust `!x` on `usize`). -/
def usizeNot (x : Nat) : Nat := (2 ^ 64 - 1) ^^^ x

def ENTRY_FLAGS_MASK : Nat := usizeNot PAGE_ADDRESS_MASK

def ENTRY_FLAG_PRESENT : Nat := 1

def ENTRY_FLAG_READONLY : Nat := 0

def ENTRY_FLAG_READWRITE : Nat := 2

def ENTRY_FLAG_USER : Nat := 4

def ENTRY_FLAG_EXEC : Nat := 0

def ENTRY_FLAG_NO_EXEC : Nat := 0x8000000000000000

def ENTRY_FLAG_DEFAULT_TABLE : Nat := 1

/-- Modelled from the spec: the fixed bias between a physical frame and its
kernel-virtual alias (spec glossary, "linear offset"); the architecture's
`phys_2_virt` is not in the snapshot. -/
def LINEAR_OFFSET : Nat := 0xffff800000000000

def phys_2_virt (p : Nat) : Option Nat := some (LINEAR_OFFSET + p)

/-- Modelled from the spec (§4.1, §3): addresses offer an alignment check
against a power-of-two modulus; the `VirtAddr`/`PhysAddr` wrappers themselves
are not in the snapshot.  `check_aligned a n` is `a & (n - 1) == 0`. -/
def check_aligned (addr n : Nat) : Bool := addr &&& (n - 1) == 0

inductive PageTableKind where
  | Kernel
  | User
deriving DecidableEq, BEq

/-- Modelled from the spec (§4.1): a virtual address reports its
address-space kind from the architecture's canonical split; the lower
canonical half is user space. -/
def vaddrKind (v : Nat) : PageTableKind :=
  if v < 2 ^ 47 then PageTableKind.User else PageTableKind.Kernel

/-! ## Page frames and iterators (`mm/allocator/page_frame.rs`) -/

structure PhysPageFrame where
  number : Nat
deriving DecidableEq

def PhysPageFrame.new (paddr : Nat) : PhysPageFrame := ⟨paddr / PAGE_SIZE⟩

def PhysPageFrame.phys_address (f : PhysPageFrame) : Nat := f.number * PAGE_SIZE

def PhysPageFrame.next_by (f : PhysPageFrame) (n : Nat) : PhysPageFrame := ⟨f.number + n⟩

def PhysPageFrame.next (f : PhysPageFrame) : PhysPageFrame := f.next_by 1

structure PhysPageFrameIter where
  current : PhysPageFrame
  ending : PhysPageFrame
deriving DecidableEq

def PhysPageFrame.iter_range (start ending : PhysPageFrame) : PhysPageFrameIter :=
  ⟨start, ending⟩

/-- `Iterator::next` for `PhysPageFrameIter`, transcribed from the source:
the guard compares `current` with `end`, and the body builds
`self.current.next()` and returns it; the source contains no assignment to
`self.current`, so the returned iterator state is the input state. -/
def PhysPageFrameIter.next (it : PhysPageFrameIter) :
    Option PhysPageFrame × PhysPageFrameIter :=
  if it.current = it.ending then (none, it)
  else (some it.current.next, it)

structure VirtPageFrame where
  number : Nat
deriving DecidableEq

def VirtPageFrame.new (vaddr : Nat) : VirtPageFrame := ⟨vaddr / PAGE_SIZE⟩

def VirtPageFrame.next_by (f : VirtPageFrame) (n : Nat) : VirtPageFrame := ⟨f.number + n⟩

def VirtPageFrame.next (f : VirtPageFrame) : VirtPageFrame := f.next_by 1

structure VirtPageFrameIter where
  current : VirtPageFrame
  ending : VirtPageFrame
deriving DecidableEq

def VirtPageFrame.iter_range (start ending : VirtPageFrame) : VirtPageFrameIter :=
  ⟨start, ending⟩

/-- `Iterator::next` for `VirtPageFrameIter`, transcribed from the source;
like the physical variant it never updates `self.current`. -/
def VirtPageFrameIter.next (it : VirtPageFrameIter) :
    Option VirtPageFrame × VirtPageFrameIter :=
  if it.current = it.ending then (none, it)
  else (some it.current.next, it)

/-- Consuming driver: pull at most `n` items from the iterator, stopping at
the first `None`, collecting the yielded frames in order. -/
def takePhysFrames : Nat → PhysPageFrameIter → List PhysPageFrame
  | 0, _ => []
  | n + 1, it =>
    match PhysPageFrameIter.next it with
    | (none, _) => []
    | (some f, it') => f :: takePhysFrames n it'

def takeVirtFrames : Nat → VirtPageFrameIter → List VirtPageFrame
  | 0, _ => []
  | n + 1, it =>
    match VirtPageFrameIter.next it with
    | (none, _) => []
    | (some f, it') => f :: takeVirtFrames n it'

/-! ## Kernel state: raw table memory and the frame allocator -/

/-- Raw kernel memory as read and written by `MMArch::read::<usize>` /
`MMArch::write::<usize>`: a total map from virtual byte addresses to machine
words (only word-aligned page-table slots are ever accessed). -/
def Mem : Type := Nat → Nat

/-- Machine state threaded through the mapper operations: the raw table
memory plus the frame-allocator state.  Modelled from the spec (§4.3): the
concrete allocator backing store is outside the snapshot, so the allocator
is a bump allocator that always succeeds, hands out page-aligned frames in
increasing order, reports `used`, and records every frame returned through
`free`. -/
structure KState where
  mem : Mem
  nextFrame : Nat
  used : Nat
  freed : List Nat

/-- `FrameAllocator::allocate_one` on the modelled bump allocator. -/
def allocate_one (st : KState) : Option (Nat × KState) :=
  some (st.nextFrame * PAGE_SIZE,
    { st with nextFrame := st.nextFrame + 1, used := st.used + 1 })

/-- `FrameAllocator::free_one` on the modelled allocator: decrements `used`
and records the returned frame. -/
def free_one (st : KState) (addr : Nat) : KState :=
  { st with used := st.used - 1, freed := addr :: st.freed }

/-! ## Page entries and flags (`mm/page.rs`, `PageEntry` / `PageFlags`)

A `PageEntry` is represented by its machine word `data`; a `PageFlags`
value by its flag word. -/

def PageEntry.present (e : Nat) : Bool := e &&& ENTRY_FLAG_PRESENT != 0

/-- `PageEntry::address`: the embedded physical address, `Ok` when the entry
is present and `Err` otherwise. -/
def PageEntry.address (e : Nat) : Except Nat Nat :=
  let paddr := e &&& PAGE_ADDRESS_MASK
  if PageEntry.present e then Except.ok paddr else Except.error paddr

/-- Rust `Result::ok`. -/
def exceptOk (r : Except Nat Nat) : Option Nat :=
  match r with
  | Except.ok a => some a
  | Except.error _ => none

def PageEntry.flags (e : Nat) : Nat := e &&& ENTRY_FLAGS_MASK

/-- `PageEntry::set_flags`: replace the flag subword, keep the rest. -/
def PageEntry.set_flags (e f : Nat) : Nat :=
  (e &&& usizeNot ENTRY_FLAGS_MASK) ||| f

def PageFlags.update_flags (f flag : Nat) (value : Bool) : Nat :=
  if value then f ||| flag else f &&& usizeNot flag

def PageFlags.has_flag (f flag : Nat) : Bool := f &&& flag == flag

def PageFlags.present (f : Nat) : Bool := PageFlags.has_flag f ENTRY_FLAG_PRESENT

def PageFlags.set_user (f : Nat) (value : Bool) : Nat :=
  PageFlags.update_flags f ENTRY_FLAG_USER value

def PageFlags.user (f : Nat) : Bool := PageFlags.has_flag f ENTRY_FLAG_USER

def PageFlags.set_write (f : Nat) (value : Bool) : Nat :=
  PageFlags.update_flags (PageFlags.update_flags f ENTRY_FLAG_READONLY (!value))
    ENTRY_FLAG_READWRITE value

def PageFlags.write (f : Nat) : Bool :=
  f &&& (ENTRY_FLAG_READWRITE ||| ENTRY_FLAG_READONLY) == ENTRY_FLAG_READWRITE

def PageFlags.set_execute (f : Nat) (value : Bool) : Nat :=
  PageFlags.update_flags (PageFlags.update_flags f ENTRY_FLAG_NO_EXEC (!value))
    ENTRY_FLAG_EXEC value

def PageFlags.execute (f : Nat) : Bool :=
  f &&& (ENTRY_FLAG_EXEC ||| ENTRY_FLAG_NO_EXEC) == ENTRY_FLAG_EXEC

def PageFlags.new_page_table : Nat :=
  ENTRY_FLAG_DEFAULT_TABLE ||| ENTRY_FLAG_READONLY ||| ENTRY_FLAG_NO_EXEC

/-! ## Page-table nodes (`mm/page.rs`, `PageTable`) -/

structure PageTable where
  base : Nat
  phys : Nat
  level : Nat
deriving DecidableEq

/-- `PageTable::virt`: the kernel-virtual alias of the node's own frame
(`Arch::phys_2_virt(self.phys).unwrap()`; the modelled translation is
total). -/
def PageTable.virtOf (t : PageTable) : Nat := (phys_2_virt t.phys).getD 0

def PageTable.entry_base (t : PageTable) (i : Nat) : Option Nat :=
  if i < PAGE_ENTRY_NUM then
    some (t.base + (i <<< (t.level * PAGE_ENTRY_SHIFT + PAGE_SHIFT)))
  else none

def PageTable.entry_virt (t : PageTable) (i : Nat) : Option Nat :=
  if i < PAGE_ENTRY_NUM then some (t.virtOf + i * PAGE_ENTRY_SIZE) else none

/-- `PageTable::entry`: read the i-th entry word through raw memory. -/
def PageTable.entry (m : Mem) (t : PageTable) (i : Nat) : Option Nat :=
  (t.entry_virt i).map (fun a => m a)

/-- `PageTable::set_entry`: write the i-th entry word; the result is the
updated memory. -/
def PageTable.set_entry (m : Mem) (t : PageTable) (i : Nat) (e : Nat) : Option Mem :=
  (t.entry_virt i).map (fun a => fun x => if x = a then e else m x)

/-- `PageTable::entry_mapped`: whether the raw word of slot i is nonzero. -/
def PageTable.entry_mapped (m : Mem) (t : PageTable) (i : Nat) : Option Bool :=
  (t.entry_virt i).map (fun a => m a != 0)

/-- `PageTable::index_of`, transcribed from the source: mask the address,
shift by the level, compare the shifted value against `PAGE_ENTRY_NUM`
before applying `PAGE_ENTRY_MASK`. -/
def PageTable.index_of (t : PageTable) (addr : Nat) : Option Nat :=
  let addr' := addr &&& PAGE_ADDRESS_MASK
  let shift := t.level * PAGE_ENTRY_SHIFT + PAGE_SHIFT
  let index := addr' >>> shift
  if index ≥ PAGE_ENTRY_NUM then none
  else some (index &&& PAGE_ENTRY_MASK)

/-- `PageTable::next_level_table`: build the child node from entry i. -/
def PageTable.next_level_table (m : Mem) (t : PageTable) (i : Nat) : Option PageTable :=
  if t.level = 0 then none
  else
    match t.entry_base i with
    | none => none
    | some b =>
      match PageTable.entry m t i with
      | none => none
      | some e =>
        match exceptOk (PageEntry.address e) with
        | none => none
        | some a => some ⟨b, a, t.level - 1⟩

/-- Virtual byte address of slot i of table t (the address `entry_virt`
yields when i is in bounds). -/
def slotAddr (t : PageTable) (i : Nat) : Nat := t.virtOf + i * PAGE_ENTRY_SIZE

/-! ## The page mapper (`mm/page.rs`, `PageMapper`) -/

structure PageMapper where
  table_kind : PageTableKind
  table_paddr : Nat

/-- `PageMapper::table`: the root node, at level `PAGE_LEVELS - 1`, base 0. -/
def PageMapper.table (mapper : PageMapper) : PageTable :=
  ⟨0, mapper.table_paddr, PAGE_LEVELS - 1⟩

/-- A single-page flusher token (`PageFlush`), carrying the virtual address
whose translation must be invalidated. -/
structure PageFlush where
  virt : Nat
deriving DecidableEq

/-- Outcome of `PageMapper::map_phys`: a flusher, a `None` return, or the
`panic!("Page ... already mapped")` abort. -/
inductive MapRes where
  | flush (f : PageFlush)
  | noneRes
  | panicRes
deriving DecidableEq

/-- The `loop` body of `PageMapper::map_phys`, transcribed from the source.
Each iteration strictly decreases `table.level`, and the loop starts at the
root (level `PAGE_LEVELS - 1`), so `PAGE_LEVELS` iterations always suffice;
the fuel parameter only bounds the recursion. -/
def mapLoop (virt entry : Nat) (st : KState) (table : PageTable) :
    Nat → KState × MapRes
  | 0 => (st, MapRes.noneRes)
  | fuel + 1 =>
    match PageTable.index_of table virt with
    | none => (st, MapRes.noneRes)
    | some i =>
      if table.level = 0 then
        match PageTable.entry_mapped st.mem table i with
        | none => (st, MapRes.noneRes)
        | some mapped =>
          if mapped then (st, MapRes.panicRes)
          else
            let m' := (PageTable.set_entry st.mem table i entry).getD st.mem
            ({ st with mem := m' }, MapRes.flush ⟨virt⟩)
      else
        match PageTable.next_level_table st.mem table i with
        | some next => mapLoop virt entry st next fuel
        | none =>
          match allocate_one st with
          | none => (st, MapRes.noneRes)
          | some (frame, st1) =>
            let fl := ENTRY_FLAG_READWRITE ||| ENTRY_FLAG_DEFAULT_TABLE |||
              (if vaddrKind virt = PageTableKind.User then ENTRY_FLAG_USER else 0)
            let m' := (PageTable.set_entry st1.mem table i (frame ||| fl)).getD st1.mem
            let st2 := { st1 with mem := m' }
            match PageTable.next_level_table st2.mem table i with
            | none => (st2, MapRes.noneRes)
            | some next => mapLoop virt entry st2 next fuel

/-- `PageMapper::map_phys`: reject misaligned input, then run the walk from
the root with the leaf entry word `phys | flags`. -/
def map_phys (st : KState) (mapper : PageMapper) (virt phys flags : Nat) :
    KState × MapRes :=
  if !(check_aligned virt PAGE_SIZE && check_aligned phys PAGE_SIZE) then
    (st, MapRes.noneRes)
  else
    let entry := phys ||| flags
    mapLoop virt entry st (mapper.table) PAGE_LEVELS

/-- The `visit` walk of `PageMapper`, transcribed from the source: descend
to the level-0 table containing `virt` and apply `f` there.  As with
`mapLoop`, `PAGE_LEVELS` fuel always suffices. -/
def visit {α : Type} (m : Mem) (table : PageTable) (virt : Nat)
    (f : PageTable → Nat → α) : Nat → Option α
  | 0 => none
  | fuel + 1 =>
    match PageTable.index_of table virt with
    | none => none
    | some i =>
      if table.level = 0 then some (f table i)
      else
        match PageTable.next_level_table m table i with
        | none => none
        | some next => visit m next virt f fuel

/-- `PageMapper::translate`: read the leaf entry via `visit`, then return
its address (when present) and flags. -/
def translate (st : KState) (mapper : PageMapper) (virt : Nat) : Option (Nat × Nat) :=
  match Option.join (visit st.mem (mapper.table) virt
      (fun p1 i => PageTable.entry st.mem p1 i) PAGE_LEVELS) with
  | none => none
  | some e =>
    match exceptOk (PageEntry.address e) with
    | none => none
    | some paddr => some (paddr, PageEntry.flags e)

/-- `PageMapper::remap`: via `visit`, read the leaf entry (whatever its
presence), replace its flag subword, write it back, and return a flusher.
The closure returns the updated memory together with the flusher so that
the `&mut` write is visible in the pure embedding. -/
def remap (st : KState) (mapper : PageMapper) (virt flags : Nat) :
    KState × Option PageFlush :=
  match Option.join (visit st.mem (mapper.table) virt
      (fun p1 i =>
        (PageTable.entry st.mem p1 i).bind (fun e =>
          (PageTable.set_entry st.mem p1 i (PageEntry.set_flags e flags)).map
            (fun m' => (m', PageFlush.mk virt)))) PAGE_LEVELS) with
  | none => (st, none)
  | some (m', fl) => ({ st with mem := m' }, some fl)

/-- `unmap_phys_inner`, transcribed from the source.  The state is threaded
separately from the optional result so that writes performed before a `?`
early return remain visible, exactly as Rust's `&mut` references do.  The
recursion descends one level per call, so `PAGE_LEVELS` fuel suffices. -/
def unmap_phys_inner (vaddr : Nat) (table : PageTable) (unmap_parents : Bool)
    (st : KState) : Nat → KState × Option (Nat × Nat)
  | 0 => (st, none)
  | fuel + 1 =>
    match PageTable.index_of table vaddr with
    | none => (st, none)
    | some i =>
      if table.level = 0 then
        match PageTable.entry st.mem table i with
        | none => (st, none)
        | some e =>
          let st' := { st with mem := (PageTable.set_entry st.mem table i 0).getD st.mem }
          match exceptOk (PageEntry.address e) with
          | none => (st', none)
          | some pa => (st', some (pa, PageEntry.flags e))
      else
        match PageTable.next_level_table st.mem table i with
        | none => (st, none)
        | some subtable =>
          match unmap_phys_inner vaddr subtable unmap_parents st fuel with
          | (st', none) => (st', none)
          | (st', some result) =>
            if unmap_parents then
              let x := (List.range PAGE_ENTRY_NUM).any
                (fun k => PageEntry.present ((PageTable.entry st'.mem subtable k).getD 0))
              if x then (st', some result)
              else
                let m'' := (PageTable.set_entry st'.mem table i 0).getD st'.mem
                let st'' := free_one { st' with mem := m'' } subtable.phys
                (st'', some result)
            else (st', some result)

/-- `PageMapper::unmap_phys`: reject a misaligned address, otherwise run the
recursive removal from the root; on success the flusher for `virt` is
attached to the result. -/
def unmap_phys (st : KState) (mapper : PageMapper) (virt : Nat)
    (unmap_parents : Bool) : KState × Option (Nat × Nat × PageFlush) :=
  if !check_aligned virt PAGE_SIZE then (st, none)
  else
    match unmap_phys_inner virt (mapper.table) unmap_parents st PAGE_LEVELS with
    | (st', none) => (st', none)
    | (st', some (pa, fl)) => (st', some (pa, fl, ⟨virt⟩))

/-! ## Free-standing alignment helpers (`mm/page.rs`, lines 710-718) -/

def round_down_to_page_size (addr : Nat) : Nat := addr &&& usizeNot (PAGE_SIZE - 1)

/-- `round_up_to_page_size`: the Rust addition on `usize` wraps modulo
`2 ^ 64` (release semantics), hence the explicit reduction. -/
def round_up_to_page_size (addr : Nat) : Nat :=
  round_down_to_page_size ((addr + PAGE_SIZE - 1) % 2 ^ 64)

/-! ## Basic lemmas about the embedded operations -/

theorem slotAddr_def (t : PageTable) (i : Nat) :
    slotAddr t i = LINEAR_OFFSET + t.phys + i * PAGE_ENTRY_SIZE := by
  unfold slotAddr PageTable.virtOf phys_2_virt
  rfl

theorem entry_eq {m : Mem} {t : PageTable} {i : Nat} (hi : i < PAGE_ENTRY_NUM) :
    PageTable.entry m t i = some (m (slotAddr t i)) := by
  unfold PageTable.entry PageTable.entry_virt slotAddr
  rw [if_pos hi]
  rfl

theorem set_entry_eq {m : Mem} {t : PageTable} {i e : Nat} (hi : i < PAGE_ENTRY_NUM) :
    PageTable.set_entry m t i e = some (fun x => if x = slotAddr t i then e else m x) := by
  unfold PageTable.set_entry PageTable.entry_virt slotAddr
  rw [if_pos hi]
  rfl

theorem entry_mapped_eq {m : Mem} {t : PageTable} {i : Nat} (hi : i < PAGE_ENTRY_NUM) :
    PageTable.entry_mapped m t i = some (m (slotAddr t i) != 0) := by
  unfold PageTable.entry_mapped PageTable.entry_virt slotAddr
  rw [if_pos hi]
  rfl

theorem exceptOk_address (e : Nat) :
    exceptOk (PageEntry.address e) =
      if PageEntry.present e then some (e &&& PAGE_ADDRESS_MASK) else none := by
  unfold exceptOk PageEntry.address
  by_cases h : PageEntry.present e
  · rw [if_pos h, if_pos h]
  · rw [if_neg h, if_neg h]

theorem index_of_elim {t : PageTable} {v i : Nat} (h : t.index_of v = some i) :
    i = ((v &&& PAGE_ADDRESS_MASK) >>> (t.level * PAGE_ENTRY_SHIFT + PAGE_SHIFT)) &&&
        PAGE_ENTRY_MASK ∧ i < PAGE_ENTRY_NUM := by
  unfold PageTable.index_of at h
  by_cases hge : (v &&& PAGE_ADDRESS_MASK) >>> (t.level * PAGE_ENTRY_SHIFT + PAGE_SHIFT) ≥
      PAGE_ENTRY_NUM
  · rw [if_pos hge] at h
    exact absurd h (by simp)
  · simp only [if_neg hge, Option.some.injEq] at h
    have hle : ((v &&& PAGE_ADDRESS_MASK) >>> (t.level * PAGE_ENTRY_SHIFT + PAGE_SHIFT)) &&&
        PAGE_ENTRY_MASK ≤ PAGE_ENTRY_MASK := Nat.and_le_right
    constructor
    · exact h.symm
    · have : PAGE_ENTRY_MASK < PAGE_ENTRY_NUM := by decide
      omega

theorem next_level_table_eq {m : Mem} {t : PageTable} {i : Nat}
    (hlvl : t.level ≠ 0) (hi : i < PAGE_ENTRY_NUM) :
    PageTable.next_level_table m t i =
      if PageEntry.present (m (slotAddr t i)) then
        some ⟨t.base + (i <<< (t.level * PAGE_ENTRY_SHIFT + PAGE_SHIFT)),
          (m (slotAddr t i)) &&& PAGE_ADDRESS_MASK, t.level - 1⟩
      else none := by
  by_cases h : PageEntry.present (m (slotAddr t i))
  · simp only [PageTable.next_level_table, PageTable.entry_base, if_neg hlvl, if_pos hi,
      entry_eq hi, exceptOk_address, if_pos h]
  · simp only [PageTable.next_level_table, PageTable.entry_base, if_neg hlvl, if_pos hi,
      entry_eq hi, exceptOk_address, if_neg h]

theorem next_level_table_elim {m : Mem} {t : PageTable} {i : Nat} {t' : PageTable}
    (h : PageTable.next_level_table m t i = some t') :
    t.level ≠ 0 ∧ i < PAGE_ENTRY_NUM ∧
    PageEntry.present (m (slotAddr t i)) = true ∧
    t'.phys = (m (slotAddr t i)) &&& PAGE_ADDRESS_MASK ∧ t'.level = t.level - 1 := by
  by_cases hlvl : t.level = 0
  · unfold PageTable.next_level_table at h
    rw [if_pos hlvl] at h
    exact absurd h (by simp)
  · by_cases hi : i < PAGE_ENTRY_NUM
    · rw [next_level_table_eq hlvl hi] at h
      by_cases hp : PageEntry.present (m (slotAddr t i))
      · rw [if_pos hp] at h
        simp only [Option.some.injEq] at h
        refine ⟨hlvl, hi, hp, ?_, ?_⟩ <;> rw [← h]
      · rw [if_neg hp] at h
        exact absurd h (by simp)
    · unfold PageTable.next_level_table PageTable.entry_base at h
      rw [if_neg hlvl, if_neg hi] at h
      exact absurd h (by simp)

theorem mask_page_aligned (x : Nat) : (x &&& PAGE_ADDRESS_MASK) % 4096 = 0 := by
  have h1 : x &&& PAGE_ADDRESS_MASK &&& (2 ^ 12 - 1) =
      x &&& (PAGE_ADDRESS_MASK &&& (2 ^ 12 - 1)) := Nat.land_assoc x _ _
  have h2 : PAGE_ADDRESS_MASK &&& (2 ^ 12 - 1) = 0 := by decide
  have h3 := Nat.and_pow_two_sub_one_eq_mod (x &&& PAGE_ADDRESS_MASK) 12
  rw [h1, h2, Nat.and_zero] at h3
  have : (2 : Nat) ^ 12 = 4096 := by norm_num
  rw [this] at h3
  exact h3.symm

theorem next_level_table_phys_aligned {m : Mem} {t : PageTable} {i : Nat} {t' : PageTable}
    (h : PageTable.next_level_table m t i = some t') : t'.phys % 4096 = 0 := by
  have := (next_level_table_elim h).2.2.2.1
  rw [this]
  exact mask_page_aligned _

theorem slotAddr_ne {t u : PageTable} {i j : Nat}
    (ht : t.phys % 4096 = 0) (hu : u.phys % 4096 = 0)
    (hi : i < PAGE_ENTRY_NUM) (hj : j < PAGE_ENTRY_NUM)
    (hne : t.phys ≠ u.phys) : slotAddr t i ≠ slotAddr u j := by
  rw [slotAddr_def, slotAddr_def]
  unfold PAGE_ENTRY_SIZE
  unfold PAGE_ENTRY_NUM at hi hj
  omega

theorem check_aligned_page_iff (x : Nat) :
    check_aligned x PAGE_SIZE = true ↔ x % 4096 = 0 := by
  unfold check_aligned PAGE_SIZE
  have h1 : (4096 : Nat) - 1 = 2 ^ 12 - 1 := by norm_num
  rw [h1, Nat.and_pow_two_sub_one_eq_mod]
  have h2 : (2 : Nat) ^ 12 = 4096 := by norm_num
  rw [h2]
  simp

theorem round_down_eq (x : Nat) (hx : x < 2 ^ 64) :
    round_down_to_page_size x = 4096 * (x / 4096) := by
  have h4096 : (4096 : Nat) = 2 ^ 12 := by norm_num
  have hmul : 4096 * (x / 4096) = (x >>> 12) <<< 12 := by
    rw [Nat.shiftRight_eq_div_pow, Nat.shiftLeft_eq, h4096, Nat.mul_comm]
  rw [hmul]
  unfold round_down_to_page_size usizeNot PAGE_SIZE
  apply Nat.eq_of_testBit_eq
  intro i
  rw [Nat.testBit_and, Nat.testBit_xor, Nat.testBit_shiftLeft, Nat.testBit_shiftRight]
  have h1 : ((2 : Nat) ^ 64 - 1).testBit i = decide (i < 64) := Nat.testBit_two_pow_sub_one 64 i
  have h2 : ((4096 : Nat) - 1).testBit i = decide (i < 12) := by
    have : (4096 : Nat) - 1 = 2 ^ 12 - 1 := by norm_num
    rw [this]
    exact Nat.testBit_two_pow_sub_one 12 i
  rw [h1, h2]
  by_cases hi12 : i < 12
  · have hge : ¬ (i ≥ 12) := by omega
    have hlt64 : i < 64 := by omega
    simp [hi12, hge, hlt64]
  · by_cases hi64 : i < 64
    · have hge : i ≥ 12 := by omega
      have : 12 + (i - 12) = i := by omega
      simp [hi12, hi64, hge, this]
    · have hbf : x.testBit i = false := Nat.testBit_lt_two_pow (by
        calc x < 2 ^ 64 := hx
        _ ≤ 2 ^ i := Nat.pow_le_pow_right (by norm_num) (by omega))
      have hge : i ≥ 12 := by omega
      have : 12 + (i - 12) = i := by omega
      simp [hi12, hi64, hge, this, hbf]

theorem lor_and_distrib (a b c : Nat) : (a ||| b) &&& c = (a &&& c) ||| (b &&& c) := by
  apply Nat.eq_of_testBit_eq
  intro i
  simp [Nat.testBit_and, Nat.testBit_or, Bool.and_or_distrib_right]

theorem set_flags_eval (e f : Nat) :
    PageEntry.set_flags e f = (e &&& PAGE_ADDRESS_MASK) ||| f := by
  unfold PageEntry.set_flags
  rw [(by decide : usizeNot ENTRY_FLAGS_MASK = PAGE_ADDRESS_MASK)]

theorem and_flags_mask_and_address_mask (f : Nat) (hf : f &&& ENTRY_FLAGS_MASK = f) :
    f &&& PAGE_ADDRESS_MASK = 0 := by
  have h : (f &&& ENTRY_FLAGS_MASK) &&& PAGE_ADDRESS_MASK = 0 := by
    rw [Nat.land_assoc, (by decide : ENTRY_FLAGS_MASK &&& PAGE_ADDRESS_MASK = 0), Nat.and_zero]
  rw [hf] at h
  exact h

theorem set_flags_address (e f : Nat) (hf : f &&& ENTRY_FLAGS_MASK = f) :
    PageEntry.set_flags e f &&& PAGE_ADDRESS_MASK = e &&& PAGE_ADDRESS_MASK := by
  rw [set_flags_eval, lor_and_distrib, Nat.land_assoc,
    (by decide : PAGE_ADDRESS_MASK &&& PAGE_ADDRESS_MASK = PAGE_ADDRESS_MASK),
    and_flags_mask_and_address_mask f hf, Nat.or_zero]

theorem set_flags_flags (e f : Nat) (hf : f &&& ENTRY_FLAGS_MASK = f) :
    PageEntry.flags (PageEntry.set_flags e f) = f := by
  unfold PageEntry.flags
  rw [set_flags_eval, lor_and_distrib, Nat.land_assoc,
    (by decide : PAGE_ADDRESS_MASK &&& ENTRY_FLAGS_MASK = 0), Nat.and_zero, hf,
    Nat.zero_or]

theorem present_and_one (f : Nat) (hfp : PageFlags.present f = true) : f &&& 1 = 1 := by
  unfold PageFlags.present PageFlags.has_flag ENTRY_FLAG_PRESENT at hfp
  simpa using hfp

theorem set_flags_present (e f : Nat) (hfp : PageFlags.present f = true) :
    PageEntry.present (PageEntry.set_flags e f) = true := by
  unfold PageEntry.present ENTRY_FLAG_PRESENT
  rw [set_flags_eval, lor_and_distrib, Nat.land_assoc,
    (by decide : PAGE_ADDRESS_MASK &&& 1 = 0), Nat.and_zero, present_and_one f hfp]
  decide

/-! ## Step lemmas for the three recursive walks -/

theorem mapLoop_descend {virt entry : Nat} {st : KState} {t : PageTable} {i : Nat}
    {t' : PageTable} {fuel : Nat}
    (hi : t.index_of virt = some i) (hlvl : t.level ≠ 0)
    (hnext : PageTable.next_level_table st.mem t i = some t') :
    mapLoop virt entry st t (fuel + 1) = mapLoop virt entry st t' fuel := by
  simp only [mapLoop, hi, if_neg hlvl, hnext]

theorem mapLoop_leaf_mapped {virt entry : Nat} {st : KState} {t : PageTable} {i fuel : Nat}
    (hi : t.index_of virt = some i) (hlvl : t.level = 0)
    (hm : st.mem (slotAddr t i) ≠ 0) :
    mapLoop virt entry st t (fuel + 1) = (st, MapRes.panicRes) := by
  have hiN := (index_of_elim hi).2
  have hb : (st.mem (slotAddr t i) != 0) = true := by simpa using hm
  simp only [mapLoop, hi, if_pos hlvl, entry_mapped_eq hiN, hb, if_true]

theorem mapLoop_leaf_empty {virt entry : Nat} {st : KState} {t : PageTable} {i fuel : Nat}
    (hi : t.index_of virt = some i) (hlvl : t.level = 0)
    (hm : st.mem (slotAddr t i) = 0) :
    mapLoop virt entry st t (fuel + 1) =
      ({ st with mem := fun x => if x = slotAddr t i then entry else st.mem x },
        MapRes.flush ⟨virt⟩) := by
  have hiN := (index_of_elim hi).2
  have hb : (st.mem (slotAddr t i) != 0) = false := by simp [hm]
  simp only [mapLoop, hi, if_pos hlvl, entry_mapped_eq hiN, hb, Bool.false_eq_true,
    if_false, set_entry_eq hiN, Option.getD_some]

theorem visit_descend {α : Type} {m : Mem} {t : PageTable} {virt i : Nat}
    {t' : PageTable} {f : PageTable → Nat → α} {fuel : Nat}
    (hi : t.index_of virt = some i) (hlvl : t.level ≠ 0)
    (hnext : PageTable.next_level_table m t i = some t') :
    visit m t virt f (fuel + 1) = visit m t' virt f fuel := by
  simp only [visit, hi, if_neg hlvl, hnext]

theorem visit_leaf {α : Type} {m : Mem} {t : PageTable} {virt i : Nat}
    {f : PageTable → Nat → α} {fuel : Nat}
    (hi : t.index_of virt = some i) (hlvl : t.level = 0) :
    visit m t virt f (fuel + 1) = some (f t i) := by
  simp only [visit, hi, if_pos hlvl]

theorem unmap_inner_propagate_none {vaddr : Nat} {t : PageTable} {up : Bool}
    {st st' : KState} {i : Nat} {sub : PageTable} {fuel : Nat}
    (hi : t.index_of vaddr = some i) (hlvl : t.level ≠ 0)
    (hsub : PageTable.next_level_table st.mem t i = some sub)
    (hrec : unmap_phys_inner vaddr sub up st fuel = (st', none)) :
    unmap_phys_inner vaddr t up st (fuel + 1) = (st', none) := by
  simp only [unmap_phys_inner, hi, if_neg hlvl, hsub, hrec]

theorem unmap_inner_leaf_not_present {vaddr : Nat} {t : PageTable} {up : Bool}
    {st : KState} {i fuel : Nat}
    (hi : t.index_of vaddr = some i) (hlvl : t.level = 0)
    (hp : PageEntry.present (st.mem (slotAddr t i)) = false) :
    unmap_phys_inner vaddr t up st (fuel + 1) =
      ({ st with mem := fun x => if x = slotAddr t i then 0 else st.mem x }, none) := by
  have hiN := (index_of_elim hi).2
  simp only [unmap_phys_inner, hi, if_pos hlvl, entry_eq hiN, set_entry_eq hiN,
    Option.getD_some, exceptOk_address, hp, Bool.false_eq_true, if_false]

theorem visit_none {α β : Type} {m : Mem} {t : PageTable} {virt : Nat}
    {f : PageTable → Nat → α} (g : PageTable → Nat → β) {fuel : Nat}
    (h : visit m t virt f fuel = none) : visit m t virt g fuel = none := by
  induction fuel generalizing t with
  | zero => rfl
  | succ n ih =>
    simp only [visit] at h ⊢
    cases hi : t.index_of virt with
    | none => simp only [hi]
    | some i =>
      simp only [hi] at h ⊢
      by_cases hlvl : t.level = 0
      · rw [if_pos hlvl] at h
        exact absurd h (by simp)
      · rw [if_neg hlvl] at h ⊢
        cases hnext : PageTable.next_level_table m t i with
        | none => simp only [hnext]
        | some t' =>
          simp only [hnext] at h ⊢
          exact ih h

/-! ## Concrete states used by the evaluation theorems and witnesses -/

/-- A fresh user mapper: empty table memory, root frame at `0x1000`, the
bump allocator about to hand out frame 2 (`0x2000`). -/
def freshUserState : KState :=
  { mem := fun _ => 0, nextFrame := 2, used := 2, freed := [] }

def s1Mapper : PageMapper := ⟨PageTableKind.User, 0x1000⟩

/-- A concrete memory holding a fully built 4-level translation path for
virtual address 0: root `0x1000` → `0x2000` → `0x3000` → leaf table
`0x4000`, whose slot 0 holds `leafWord`. -/
def builtMem (leafWord : Nat) : Mem := fun a =>
  if a = LINEAR_OFFSET + 0x1000 then 0x2003
  else if a = LINEAR_OFFSET + 0x2000 then 0x3003
  else if a = LINEAR_OFFSET + 0x3000 then 0x4003
  else if a = LINEAR_OFFSET + 0x4000 then leafWord
  else 0

def builtState (leafWord : Nat) : KState :=
  { mem := builtMem leafWord, nextFrame := 5, used := 5, freed := [] }

def builtMapper : PageMapper := ⟨PageTableKind.User, 0x1000⟩

/-! ## Claim theorems -/

/-- C1 (evaluation at the failing input): on a fresh user mapper, with the
page-aligned addresses of spec scenario S1 and no prior mapping at the
virtual address, `map_phys(0x400000, 0x80000000, present|rw|user)` returns
`None` instead of a flusher: `index_of` compares the shifted index (1024 at
level 0) against `PAGE_ENTRY_NUM` before masking, so the walk fails at the
leaf level. -/
theorem C1_s1_map_phys_fails :
    check_aligned 0x400000 PAGE_SIZE = true ∧
    check_aligned 0x80000000 PAGE_SIZE = true ∧
    translate freshUserState s1Mapper 0x400000 = none ∧
    (map_phys freshUserState s1Mapper 0x400000 0x80000000
      (ENTRY_FLAG_PRESENT ||| ENTRY_FLAG_READWRITE ||| ENTRY_FLAG_USER)).2 =
      MapRes.noneRes :=
  ⟨rfl, rfl, rfl, rfl⟩

/-- C2 (evaluation at the failing input): the iterator of spec scenario S5,
`iter_range` over frames `[1, 4)`, should yield frames 1, 2, 3 and stop;
the source iterator never advances `current`, so it yields frame 2 (the
successor of the start) indefinitely — four pulls give four items, all equal
to frame 2.  The empty range does yield nothing, and the virtual-frame
iterator has the same behaviour. -/
theorem C2_iterator_eval :
    takePhysFrames 1 (PhysPageFrame.iter_range ⟨1⟩ ⟨1⟩) = [] ∧
    takePhysFrames 4 (PhysPageFrame.iter_range ⟨1⟩ ⟨4⟩) = [⟨2⟩, ⟨2⟩, ⟨2⟩, ⟨2⟩] ∧
    takeVirtFrames 4 (VirtPageFrame.iter_range ⟨1⟩ ⟨4⟩) = [⟨2⟩, ⟨2⟩, ⟨2⟩, ⟨2⟩] :=
  ⟨rfl, rfl, rfl⟩

/-- C3 (counterexample): for the level-0 node with base `0x400000` and the
canonical address `0x400000`, the claim demands
`some ((v >> 12) & PAGE_ENTRY_MASK)`, but `index_of` returns `none` because
it compares the unmasked shifted value (1024) against `PAGE_ENTRY_NUM`. -/
theorem C3_counterexample :
    PageTable.index_of ⟨0x400000, 0x4000, 0⟩ 0x400000 ≠
      some (((0x400000 &&& PAGE_ADDRESS_MASK) >>>
        (PAGE_SHIFT + 0 * PAGE_ENTRY_SHIFT)) &&& PAGE_ENTRY_MASK) := by
  decide

/-- C3 (amended): `index_of` returns the masked shifted index
`((v & PAGE_ADDRESS_MASK) >> (PAGE_SHIFT + level·PAGE_ENTRY_SHIFT)) & PAGE_ENTRY_MASK`
provided the shifted value is below `PAGE_ENTRY_NUM`; otherwise it returns
`none`. -/
theorem C3_index_of {t : PageTable} {v : Nat}
    (h : (v &&& PAGE_ADDRESS_MASK) >>> (PAGE_SHIFT + t.level * PAGE_ENTRY_SHIFT) <
      PAGE_ENTRY_NUM) :
    t.index_of v = some (((v &&& PAGE_ADDRESS_MASK) >>>
      (PAGE_SHIFT + t.level * PAGE_ENTRY_SHIFT)) &&& PAGE_ENTRY_MASK) := by
  have hc : PAGE_SHIFT + t.level * PAGE_ENTRY_SHIFT =
      t.level * PAGE_ENTRY_SHIFT + PAGE_SHIFT := Nat.add_comm _ _
  rw [hc] at h ⊢
  simp only [PageTable.index_of]
  rw [if_neg (by omega)]

/-- C3 witness: a level-0 node at base 0 and the address `0x3000`, whose
shifted index 3 is in range. -/
theorem C3_index_of_witness :
    (0x3000 &&& PAGE_ADDRESS_MASK) >>> (PAGE_SHIFT + (0 : Nat) * PAGE_ENTRY_SHIFT) <
      PAGE_ENTRY_NUM ∧
    PageTable.index_of ⟨0, 0x1000, 0⟩ 0x3000 =
      some (((0x3000 &&& PAGE_ADDRESS_MASK) >>>
        (PAGE_SHIFT + (0 : Nat) * PAGE_ENTRY_SHIFT)) &&& PAGE_ENTRY_MASK) :=
  ⟨by decide, @C3_index_of ⟨0, 0x1000, 0⟩ 0x3000 (by decide)⟩

/-- C6: on misaligned input, `map_phys` (virtual or physical address
unaligned) and `unmap_phys` (virtual address unaligned) return `None` with
the state — table memory and allocator — unchanged: the alignment guard
fires before any allocation or write. -/
theorem C6_misaligned_rejected (st : KState) (mapper : PageMapper) (v p f : Nat)
    (up : Bool)
    (h : check_aligned v PAGE_SIZE = false ∨ check_aligned p PAGE_SIZE = false) :
    map_phys st mapper v p f = (st, MapRes.noneRes) ∧
    (check_aligned v PAGE_SIZE = false → unmap_phys st mapper v up = (st, none)) := by
  constructor
  · have hb : (check_aligned v PAGE_SIZE && check_aligned p PAGE_SIZE) = false := by
      cases h with
      | inl h => simp [h]
      | inr h => simp [h]
    unfold map_phys
    rw [hb]
    rfl
  · intro hv
    unfold unmap_phys
    rw [hv]
    rfl

/-- C6 witness: the misaligned address of spec scenario S4. -/
theorem C6_misaligned_rejected_witness :
    (check_aligned 0x400001 PAGE_SIZE = false ∨ check_aligned 0x80000000 PAGE_SIZE = false) ∧
    (map_phys freshUserState s1Mapper 0x400001 0x80000000 7 =
      (freshUserState, MapRes.noneRes) ∧
     (check_aligned 0x400001 PAGE_SIZE = false →
       unmap_phys freshUserState s1Mapper 0x400001 true = (freshUserState, none))) :=
  ⟨Or.inl (by decide),
   C6_misaligned_rejected freshUserState s1Mapper 0x400001 0x80000000 7 true
     (Or.inl (by decide))⟩

/-- C7 (counterexample): with every intermediate level present but the leaf
entry zero (not present) — so no mapping exists at address 0, as `translate`
confirms — `remap` nevertheless returns a flusher, and it writes the new
flag word into the empty leaf slot. -/
theorem C7_counterexample :
    translate (builtState 0) builtMapper 0 = none ∧
    (remap (builtState 0) builtMapper 0 7).2 = some ⟨0⟩ ∧
    (remap (builtState 0) builtMapper 0 7).1.mem (LINEAR_OFFSET + 0x4000) = 7 :=
  ⟨rfl, rfl, rfl⟩

/-- C7 (amended): `remap` returns `None` (and no flusher, with the state
unchanged) whenever the walk to the leaf table fails — an intermediate
level absent or an index check failing; when the walk reaches the leaf
table, `remap` succeeds even if the leaf entry itself is not present. -/
theorem C7_remap_miss {st : KState} {mapper : PageMapper} {v : Nat} (f : Nat)
    (hwalk : visit st.mem (mapper.table) v (fun t i => (t, i)) PAGE_LEVELS = none) :
    remap st mapper v f = (st, none) := by
  unfold remap
  rw [visit_none _ hwalk]
  rfl

/-- C7 witness: on the fresh (all-empty) mapper the walk fails at the root,
and `remap` returns `None` with the state unchanged. -/
theorem C7_remap_miss_witness :
    visit freshUserState.mem (s1Mapper.table) 0 (fun t i => (t, i)) PAGE_LEVELS = none ∧
    remap freshUserState s1Mapper 0 7 = (freshUserState, none) :=
  ⟨rfl, C7_remap_miss 7 rfl⟩

/-- C9 (counterexample): with wrapping machine arithmetic,
`round_up(2^64 - 1)` wraps to 0, so `round_up(x) ≥ x` fails at the top of
the address space. -/
theorem C9_counterexample :
    ¬ (2 ^ 64 - 1 ≤ round_up_to_page_size (2 ^ 64 - 1)) := by
  decide

/-- C9 (amended): for machine words `x < 2^64`:
`round_down(x) ≤ x < round_down(x) + PAGE_SIZE` always;
`round_up(x) ≥ x` provided `x + PAGE_SIZE - 1` does not wrap; and
`round_up(round_down(x)) = round_down(x)` for page-aligned `x`. -/
theorem C9_round_laws (x : Nat) (hx : x < 2 ^ 64) :
    (round_down_to_page_size x ≤ x ∧ x < round_down_to_page_size x + PAGE_SIZE) ∧
    (x + PAGE_SIZE - 1 < 2 ^ 64 → x ≤ round_up_to_page_size x) ∧
    (check_aligned x PAGE_SIZE = true →
      round_up_to_page_size (round_down_to_page_size x) = round_down_to_page_size x) := by
  have hdm := Nat.div_add_mod x 4096
  have hmlt : x % 4096 < 4096 := Nat.mod_lt _ (by norm_num)
  have hrd := round_down_eq x hx
  refine ⟨⟨?_, ?_⟩, ?_, ?_⟩
  · rw [hrd]
    omega
  · rw [hrd]
    unfold PAGE_SIZE
    omega
  · intro hlt
    unfold PAGE_SIZE at hlt
    unfold round_up_to_page_size PAGE_SIZE
    rw [Nat.mod_eq_of_lt hlt, round_down_eq (x + 4096 - 1) hlt]
    have hdm2 := Nat.div_add_mod (x + 4096 - 1) 4096
    have hm2 : (x + 4096 - 1) % 4096 < 4096 := Nat.mod_lt _ (by norm_num)
    omega
  · intro hal
    rw [check_aligned_page_iff] at hal
    have hxeq : round_down_to_page_size x = x := by
      rw [hrd]
      omega
    rw [hxeq]
    unfold round_up_to_page_size PAGE_SIZE
    have hlt : x + 4096 - 1 < 2 ^ 64 := by omega
    rw [Nat.mod_eq_of_lt hlt, round_down_eq (x + 4096 - 1) hlt]
    have hdm2 := Nat.div_add_mod (x + 4096 - 1) 4096
    have hm2 : (x + 4096 - 1) % 4096 < 4096 := Nat.mod_lt _ (by norm_num)
    omega

/-- C9 witness: the laws instantiated at 6000. -/
theorem C9_round_laws_witness :
    (round_down_to_page_size 6000 ≤ 6000 ∧
      6000 < round_down_to_page_size 6000 + PAGE_SIZE) ∧
    (6000 + PAGE_SIZE - 1 < 2 ^ 64 → 6000 ≤ round_up_to_page_size 6000) ∧
    (check_aligned 6000 PAGE_SIZE = true →
      round_up_to_page_size (round_down_to_page_size 6000) =
        round_down_to_page_size 6000) :=
  C9_round_laws 6000 (by norm_num)

theorem next_level_table_congr {m m' : Mem} {t : PageTable} {i : Nat}
    (h : m' (slotAddr t i) = m (slotAddr t i)) :
    PageTable.next_level_table m' t i = PageTable.next_level_table m t i := by
  by_cases hlvl : t.level = 0
  · unfold PageTable.next_level_table
    rw [if_pos hlvl, if_pos hlvl]
  · by_cases hi : i < PAGE_ENTRY_NUM
    · rw [next_level_table_eq hlvl hi, next_level_table_eq hlvl hi, h]
    · unfold PageTable.next_level_table PageTable.entry_base
      rw [if_neg hlvl, if_neg hlvl, if_neg hi]

/-- C5: when the walk of `map_phys` (with aligned inputs and every level of
the path already present) reaches a level-0 slot whose raw word is nonzero,
`map_phys` aborts via `panic!` rather than returning; when that leaf slot is
empty the abort branch is not taken and a flusher for `virt` is returned. -/
theorem C5_double_map_panics {st : KState} {mapper : PageMapper} {v p f : Nat}
    {i3 i2 i1 i0 : Nat} {t2 t1 t0 : PageTable}
    (hva : check_aligned v PAGE_SIZE = true)
    (hpa : check_aligned p PAGE_SIZE = true)
    (hi3 : (mapper.table).index_of v = some i3)
    (ht2 : PageTable.next_level_table st.mem (mapper.table) i3 = some t2)
    (hi2 : t2.index_of v = some i2)
    (ht1 : PageTable.next_level_table st.mem t2 i2 = some t1)
    (hi1 : t1.index_of v = some i1)
    (ht0 : PageTable.next_level_table st.mem t1 i1 = some t0)
    (hi0 : t0.index_of v = some i0) :
    (st.mem (slotAddr t0 i0) ≠ 0 → (map_phys st mapper v p f).2 = MapRes.panicRes) ∧
    (st.mem (slotAddr t0 i0) = 0 → (map_phys st mapper v p f).2 = MapRes.flush ⟨v⟩) := by
  have hL3 : (mapper.table).level = 3 := rfl
  have hL3ne : (mapper.table).level ≠ 0 := by rw [hL3]; omega
  have hL2 : t2.level = 2 := by
    have h := (next_level_table_elim ht2).2.2.2.2
    rw [hL3] at h
    omega
  have hL2ne : t2.level ≠ 0 := by omega
  have hL1 : t1.level = 1 := by
    have h := (next_level_table_elim ht1).2.2.2.2
    omega
  have hL1ne : t1.level ≠ 0 := by omega
  have hL0 : t0.level = 0 := by
    have h := (next_level_table_elim ht0).2.2.2.2
    omega
  have hguard : (!(check_aligned v PAGE_SIZE && check_aligned p PAGE_SIZE)) = false := by
    rw [hva, hpa]
    rfl
  have hmap : map_phys st mapper v p f = mapLoop v (p ||| f) st t0 1 := by
    unfold map_phys
    rw [hguard]
    simp only [Bool.false_eq_true, if_false]
    calc mapLoop v (p ||| f) st (mapper.table) PAGE_LEVELS
        = mapLoop v (p ||| f) st t2 3 := mapLoop_descend hi3 hL3ne ht2
      _ = mapLoop v (p ||| f) st t1 2 := mapLoop_descend hi2 hL2ne ht1
      _ = mapLoop v (p ||| f) st t0 1 := mapLoop_descend hi1 hL1ne ht0
  constructor
  · intro hm
    rw [hmap, mapLoop_leaf_mapped hi0 hL0 hm]
  · intro hm
    rw [hmap, mapLoop_leaf_empty hi0 hL0 hm]

/-- C5 witness: on the concrete built tree with leaf word 5 the double-map
panics; with leaf word 0 the same call returns a flusher. -/
theorem C5_double_map_panics_witness :
    ((builtState 5).mem (slotAddr ⟨0, 0x4000, 0⟩ 0) ≠ 0 ∧
      (map_phys (builtState 5) builtMapper 0 0x6000 7).2 = MapRes.panicRes) ∧
    ((builtState 0).mem (slotAddr ⟨0, 0x4000, 0⟩ 0) = 0 ∧
      (map_phys (builtState 0) builtMapper 0 0x6000 7).2 = MapRes.flush ⟨0⟩) := by
  refine ⟨⟨by decide, ?_⟩, ⟨by decide, ?_⟩⟩
  · exact (@C5_double_map_panics (builtState 5) builtMapper 0 0x6000 7 0 0 0 0
      ⟨0, 0x2000, 2⟩ ⟨0, 0x3000, 1⟩ ⟨0, 0x4000, 0⟩
      (by decide) (by decide) (by decide) (by decide) (by decide) (by decide)
      (by decide) (by decide) (by decide)).1 (by decide)
  · exact (@C5_double_map_panics (builtState 0) builtMapper 0 0x6000 7 0 0 0 0
      ⟨0, 0x2000, 2⟩ ⟨0, 0x3000, 1⟩ ⟨0, 0x4000, 0⟩
      (by decide) (by decide) (by decide) (by decide) (by decide) (by decide)
      (by decide) (by decide) (by decide)).2 (by decide)

/-- C10: when `unmap_phys` reaches a level-0 entry whose raw word is nonzero
but whose present bit is clear, it returns `None` — yet the leaf entry has
already been overwritten with zero: the miss path at the leaf is not atomic
with respect to the page-table state. -/
theorem C10_unmap_miss_zeroes_leaf {st : KState} {mapper : PageMapper} {v : Nat}
    {up : Bool} {i3 i2 i1 i0 : Nat} {t2 t1 t0 : PageTable}
    (hva : check_aligned v PAGE_SIZE = true)
    (hi3 : (mapper.table).index_of v = some i3)
    (ht2 : PageTable.next_level_table st.mem (mapper.table) i3 = some t2)
    (hi2 : t2.index_of v = some i2)
    (ht1 : PageTable.next_level_table st.mem t2 i2 = some t1)
    (hi1 : t1.index_of v = some i1)
    (ht0 : PageTable.next_level_table st.mem t1 i1 = some t0)
    (hi0 : t0.index_of v = some i0)
    (hw : st.mem (slotAddr t0 i0) ≠ 0)
    (hp : PageEntry.present (st.mem (slotAddr t0 i0)) = false) :
    (unmap_phys st mapper v up).2 = none ∧
    (unmap_phys st mapper v up).1.mem (slotAddr t0 i0) = 0 := by
  have hL3 : (mapper.table).level = 3 := rfl
  have hL3ne : (mapper.table).level ≠ 0 := by rw [hL3]; omega
  have hL2 : t2.level = 2 := by
    have h := (next_level_table_elim ht2).2.2.2.2
    rw [hL3] at h
    omega
  have hL2ne : t2.level ≠ 0 := by omega
  have hL1 : t1.level = 1 := by
    have h := (next_level_table_elim ht1).2.2.2.2
    omega
  have hL1ne : t1.level ≠ 0 := by omega
  have hL0 : t0.level = 0 := by
    have h := (next_level_table_elim ht0).2.2.2.2
    omega
  have h1 : unmap_phys_inner v t0 up st 1 =
      ({ st with mem := fun x => if x = slotAddr t0 i0 then 0 else st.mem x }, none) :=
    unmap_inner_leaf_not_present hi0 hL0 hp
  have h2 : unmap_phys_inner v t1 up st 2 =
      ({ st with mem := fun x => if x = slotAddr t0 i0 then 0 else st.mem x }, none) :=
    unmap_inner_propagate_none hi1 hL1ne ht0 h1
  have h3 : unmap_phys_inner v t2 up st 3 =
      ({ st with mem := fun x => if x = slotAddr t0 i0 then 0 else st.mem x }, none) :=
    unmap_inner_propagate_none hi2 hL2ne ht1 h2
  have h4 : unmap_phys_inner v (mapper.table) up st PAGE_LEVELS =
      ({ st with mem := fun x => if x = slotAddr t0 i0 then 0 else st.mem x }, none) :=
    unmap_inner_propagate_none hi3 hL3ne ht2 h3
  have hu : unmap_phys st mapper v up =
      ({ st with mem := fun x => if x = slotAddr t0 i0 then 0 else st.mem x }, none) := by
    unfold unmap_phys
    rw [hva]
    simp only [Bool.not_true, Bool.false_eq_true, if_false, h4]
  rw [hu]
  exact ⟨rfl, by simp⟩

/-- C10 witness: the built tree whose leaf word is 2 — nonzero but with the
present bit clear. -/
theorem C10_unmap_miss_zeroes_leaf_witness :
    (unmap_phys (builtState 2) builtMapper 0 true).2 = none ∧
    (unmap_phys (builtState 2) builtMapper 0 true).1.mem (slotAddr ⟨0, 0x4000, 0⟩ 0) = 0 :=
  @C10_unmap_miss_zeroes_leaf (builtState 2) builtMapper 0 true 0 0 0 0
    ⟨0, 0x2000, 2⟩ ⟨0, 0x3000, 1⟩ ⟨0, 0x4000, 0⟩
    (by decide) (by decide) (by decide) (by decide) (by decide) (by decide)
    (by decide) (by decide) (by decide) (by decide)

/-- C4: in `unmap_phys_inner` with `unmap_parents = true`, whenever the
descent below a non-leaf table succeeds and the child table is left with no
present entry, the parent's entry pointing at the child is zeroed and the
child's physical frame is returned to the allocator via `free_one`.  The
statement is quantified over the level and the recursion fuel, so it covers
every ancestor on the removal path. -/
theorem C4_unmap_parents_prunes {vaddr : Nat} {t : PageTable} {st st' : KState}
    {i : Nat} {sub : PageTable} {r : Nat × Nat} {fuel : Nat}
    (hi : t.index_of vaddr = some i) (hlvl : t.level ≠ 0)
    (hsub : PageTable.next_level_table st.mem t i = some sub)
    (hrec : unmap_phys_inner vaddr sub true st fuel = (st', some r))
    (hempty : ∀ k, k < PAGE_ENTRY_NUM →
      PageEntry.present ((PageTable.entry st'.mem sub k).getD 0) = false) :
    (unmap_phys_inner vaddr t true st (fuel + 1)).2 = some r ∧
    (unmap_phys_inner vaddr t true st (fuel + 1)).1.mem (slotAddr t i) = 0 ∧
    sub.phys ∈ (unmap_phys_inner vaddr t true st (fuel + 1)).1.freed ∧
    (unmap_phys_inner vaddr t true st (fuel + 1)).1.used = st'.used - 1 := by
  have hiN := (index_of_elim hi).2
  have hx : ((List.range PAGE_ENTRY_NUM).any
      (fun k => PageEntry.present ((PageTable.entry st'.mem sub k).getD 0))) = false := by
    rw [List.any_eq_false]
    intro k hk
    rw [List.mem_range] at hk
    simp [hempty k hk]
  have hmain : unmap_phys_inner vaddr t true st (fuel + 1) =
      (free_one { st' with mem := fun x => if x = slotAddr t i then 0 else st'.mem x }
        sub.phys, some r) := by
    simp only [unmap_phys_inner, hi, if_neg hlvl, hsub, hrec, hx, set_entry_eq hiN,
      Option.getD_some, if_true, Bool.false_eq_true, if_false]
  rw [hmain]
  refine ⟨rfl, by simp [free_one], ?_, rfl⟩
  simp [free_one]

theorem translate_chain {st : KState} {mapper : PageMapper} {v : Nat}
    {i3 i2 i1 i0 : Nat} {t2 t1 t0 : PageTable}
    (hi3 : (mapper.table).index_of v = some i3)
    (ht2 : PageTable.next_level_table st.mem (mapper.table) i3 = some t2)
    (hi2 : t2.index_of v = some i2)
    (ht1 : PageTable.next_level_table st.mem t2 i2 = some t1)
    (hi1 : t1.index_of v = some i1)
    (ht0 : PageTable.next_level_table st.mem t1 i1 = some t0)
    (hi0 : t0.index_of v = some i0) :
    translate st mapper v =
      if PageEntry.present (st.mem (slotAddr t0 i0)) then
        some (st.mem (slotAddr t0 i0) &&& PAGE_ADDRESS_MASK,
          PageEntry.flags (st.mem (slotAddr t0 i0)))
      else none := by
  have hL3 : (mapper.table).level = 3 := rfl
  have hL3ne : (mapper.table).level ≠ 0 := by rw [hL3]; omega
  have hL2 : t2.level = 2 := by
    have h := (next_level_table_elim ht2).2.2.2.2
    rw [hL3] at h
    omega
  have hL2ne : t2.level ≠ 0 := by omega
  have hL1 : t1.level = 1 := by
    have h := (next_level_table_elim ht1).2.2.2.2
    omega
  have hL1ne : t1.level ≠ 0 := by omega
  have hL0 : t0.level = 0 := by
    have h := (next_level_table_elim ht0).2.2.2.2
    omega
  have hi0N := (index_of_elim hi0).2
  have hvisit : visit st.mem (mapper.table) v
      (fun p1 i => PageTable.entry st.mem p1 i) PAGE_LEVELS =
      some (PageTable.entry st.mem t0 i0) := by
    calc visit st.mem (mapper.table) v (fun p1 i => PageTable.entry st.mem p1 i) PAGE_LEVELS
        = visit st.mem t2 v (fun p1 i => PageTable.entry st.mem p1 i) 3 :=
          visit_descend hi3 hL3ne ht2
      _ = visit st.mem t1 v (fun p1 i => PageTable.entry st.mem p1 i) 2 :=
          visit_descend hi2 hL2ne ht1
      _ = visit st.mem t0 v (fun p1 i => PageTable.entry st.mem p1 i) 1 :=
          visit_descend hi1 hL1ne ht0
      _ = some (PageTable.entry st.mem t0 i0) := visit_leaf hi0 hL0
  unfold translate
  rw [hvisit, entry_eq hi0N]
  by_cases hp : PageEntry.present (st.mem (slotAddr t0 i0))
  · simp [Option.join, exceptOk_address, hp]
  · simp [Option.join, exceptOk_address, hp]

/-- C8: `remap(v, f)` preserves the physical address of the leaf entry:
with a present mapping at `v` (full path, pairwise-distinct table frames)
and a flag word `f` within the flag subword that carries the present bit,
`translate` before the remap and after it return the same physical address,
and the flags after the remap are exactly `f` — `set_flags` alters only the
flag-bit subword and leaves the address field unchanged. -/
theorem C8_remap_preserves_address {st : KState} {mapper : PageMapper} {v f : Nat}
    {i3 i2 i1 i0 : Nat} {t2 t1 t0 : PageTable}
    (hroot : mapper.table_paddr % 4096 = 0)
    (hi3 : (mapper.table).index_of v = some i3)
    (ht2 : PageTable.next_level_table st.mem (mapper.table) i3 = some t2)
    (hi2 : t2.index_of v = some i2)
    (ht1 : PageTable.next_level_table st.mem t2 i2 = some t1)
    (hi1 : t1.index_of v = some i1)
    (ht0 : PageTable.next_level_table st.mem t1 i1 = some t0)
    (hi0 : t0.index_of v = some i0)
    (hd3 : t0.phys ≠ (mapper.table).phys)
    (hd2 : t0.phys ≠ t2.phys)
    (hd1 : t0.phys ≠ t1.phys)
    (hpres : PageEntry.present (st.mem (slotAddr t0 i0)) = true)
    (hf : f &&& ENTRY_FLAGS_MASK = f)
    (hfp : PageFlags.present f = true) :
    translate st mapper v =
      some (st.mem (slotAddr t0 i0) &&& PAGE_ADDRESS_MASK,
        PageEntry.flags (st.mem (slotAddr t0 i0))) ∧
    (remap st mapper v f).2 = some ⟨v⟩ ∧
    translate (remap st mapper v f).1 mapper v =
      some (st.mem (slotAddr t0 i0) &&& PAGE_ADDRESS_MASK, f) := by
  have hL3 : (mapper.table).level = 3 := rfl
  have hL3ne : (mapper.table).level ≠ 0 := by rw [hL3]; omega
  have hL2 : t2.level = 2 := by
    have h := (next_level_table_elim ht2).2.2.2.2
    rw [hL3] at h
    omega
  have hL2ne : t2.level ≠ 0 := by omega
  have hL1 : t1.level = 1 := by
    have h := (next_level_table_elim ht1).2.2.2.2
    omega
  have hL1ne : t1.level ≠ 0 := by omega
  have hL0 : t0.level = 0 := by
    have h := (next_level_table_elim ht0).2.2.2.2
    omega
  have hi3N := (index_of_elim hi3).2
  have hi2N := (index_of_elim hi2).2
  have hi1N := (index_of_elim hi1).2
  have hi0N := (index_of_elim hi0).2
  have ha3 : (mapper.table).phys % 4096 = 0 := hroot
  have ha2 : t2.phys % 4096 = 0 := next_level_table_phys_aligned ht2
  have ha1 : t1.phys % 4096 = 0 := next_level_table_phys_aligned ht1
  have ha0 : t0.phys % 4096 = 0 := next_level_table_phys_aligned ht0
  have htransBefore := translate_chain hi3 ht2 hi2 ht1 hi1 ht0 hi0
  rw [if_pos hpres] at htransBefore
  have hvisitR : visit st.mem (mapper.table) v
      (fun p1 i =>
        (PageTable.entry st.mem p1 i).bind (fun e =>
          (PageTable.set_entry st.mem p1 i (PageEntry.set_flags e f)).map
            (fun m' => (m', PageFlush.mk v)))) PAGE_LEVELS =
      some ((PageTable.entry st.mem t0 i0).bind (fun e =>
        (PageTable.set_entry st.mem t0 i0 (PageEntry.set_flags e f)).map
          (fun m' => (m', PageFlush.mk v)))) := by
    calc visit st.mem (mapper.table) v _ PAGE_LEVELS
        = visit st.mem t2 v _ 3 := visit_descend hi3 hL3ne ht2
      _ = visit st.mem t1 v _ 2 := visit_descend hi2 hL2ne ht1
      _ = visit st.mem t0 v _ 1 := visit_descend hi1 hL1ne ht0
      _ = _ := visit_leaf hi0 hL0
  have hremap : remap st mapper v f =
      ({ st with mem := fun x => if x = slotAddr t0 i0
          then PageEntry.set_flags (st.mem (slotAddr t0 i0)) f else st.mem x },
        some ⟨v⟩) := by
    unfold remap
    rw [hvisitR, entry_eq hi0N]
    simp [set_entry_eq hi0N, Option.join]
  have hm3 : (fun x => if x = slotAddr t0 i0
      then PageEntry.set_flags (st.mem (slotAddr t0 i0)) f else st.mem x)
      (slotAddr (mapper.table) i3) = st.mem (slotAddr (mapper.table) i3) := by
    have hne : slotAddr (mapper.table) i3 ≠ slotAddr t0 i0 :=
      slotAddr_ne ha3 ha0 hi3N hi0N (fun hh => hd3 hh.symm)
    simp [hne]
  have hm2 : (fun x => if x = slotAddr t0 i0
      then PageEntry.set_flags (st.mem (slotAddr t0 i0)) f else st.mem x)
      (slotAddr t2 i2) = st.mem (slotAddr t2 i2) := by
    have hne : slotAddr t2 i2 ≠ slotAddr t0 i0 :=
      slotAddr_ne ha2 ha0 hi2N hi0N (fun hh => hd2 hh.symm)
    simp [hne]
  have hm1 : (fun x => if x = slotAddr t0 i0
      then PageEntry.set_flags (st.mem (slotAddr t0 i0)) f else st.mem x)
      (slotAddr t1 i1) = st.mem (slotAddr t1 i1) := by
    have hne : slotAddr t1 i1 ≠ slotAddr t0 i0 :=
      slotAddr_ne ha1 ha0 hi1N hi0N (fun hh => hd1 hh.symm)
    simp [hne]
  refine ⟨htransBefore, by rw [hremap], ?_⟩
  rw [hremap]
  have ht2' : PageTable.next_level_table
      ({ st with mem := fun x => if x = slotAddr t0 i0
          then PageEntry.set_flags (st.mem (slotAddr t0 i0)) f else st.mem x } : KState).mem
      (mapper.table) i3 = some t2 := by
    rw [next_level_table_congr hm3]
    exact ht2
  have ht1' : PageTable.next_level_table
      ({ st with mem := fun x => if x = slotAddr t0 i0
          then PageEntry.set_flags (st.mem (slotAddr t0 i0)) f else st.mem x } : KState).mem
      t2 i2 = some t1 := by
    rw [next_level_table_congr hm2]
    exact ht1
  have ht0' : PageTable.next_level_table
      ({ st with mem := fun x => if x = slotAddr t0 i0
          then PageEntry.set_flags (st.mem (slotAddr t0 i0)) f else st.mem x } : KState).mem
      t1 i1 = some t0 := by
    rw [next_level_table_congr hm1]
    exact ht0
  have htransAfter := translate_chain hi3 ht2' hi2 ht1' hi1 ht0' hi0
  have hhit : ({ st with mem := fun x => if x = slotAddr t0 i0
      then PageEntry.set_flags (st.mem (slotAddr t0 i0)) f else st.mem x } : KState).mem
      (slotAddr t0 i0) = PageEntry.set_flags (st.mem (slotAddr t0 i0)) f := by
    simp
  rw [hhit] at htransAfter
  rw [if_pos (set_flags_present _ _ hfp)] at htransAfter
  rw [set_flags_address _ _ hf, set_flags_flags _ _ hf] at htransAfter
  exact htransAfter

/-- C8 witness: the built tree with a present, writable leaf entry at
`0x80000000`, remapped to flags `present|rw|user`. -/
theorem C8_remap_preserves_address_witness :
    translate (builtState 0x80000003) builtMapper 0 =
      some ((builtState 0x80000003).mem (slotAddr ⟨0, 0x4000, 0⟩ 0) &&& PAGE_ADDRESS_MASK,
        PageEntry.flags ((builtState 0x80000003).mem (slotAddr ⟨0, 0x4000, 0⟩ 0))) ∧
    (remap (builtState 0x80000003) builtMapper 0 7).2 = some ⟨0⟩ ∧
    translate (remap (builtState 0x80000003) builtMapper 0 7).1 builtMapper 0 =
      some ((builtState 0x80000003).mem (slotAddr ⟨0, 0x4000, 0⟩ 0) &&& PAGE_ADDRESS_MASK, 7) :=
  @C8_remap_preserves_address (builtState 0x80000003) builtMapper 0 7 0 0 0 0
    ⟨0, 0x2000, 2⟩ ⟨0, 0x3000, 1⟩ ⟨0, 0x4000, 0⟩
    (by decide) (by decide) (by decide) (by decide) (by decide) (by decide)
    (by decide) (by decide) (by decide) (by decide) (by decide) (by decide)
    (by decide) (by decide)

set_option maxRecDepth 8192 in
/-- C4 witness: removing the only mapping below the level-1 table of the
built tree leaves the leaf table empty; the parent entry is zeroed and the
leaf table's frame `0x4000` is handed back to the allocator. -/
theorem C4_unmap_parents_prunes_witness :
    (unmap_phys_inner 0 ⟨0, 0x3000, 1⟩ true (builtState 0x80000003) 2).2 =
      some (0x80000000, 3) ∧
    (unmap_phys_inner 0 ⟨0, 0x3000, 1⟩ true (builtState 0x80000003) 2).1.mem
      (slotAddr ⟨0, 0x3000, 1⟩ 0) = 0 ∧
    (0x4000 : Nat) ∈
      (unmap_phys_inner 0 ⟨0, 0x3000, 1⟩ true (builtState 0x80000003) 2).1.freed ∧
    (unmap_phys_inner 0 ⟨0, 0x3000, 1⟩ true (builtState 0x80000003) 2).1.used =
      (unmap_phys_inner 0 ⟨0, 0x4000, 0⟩ true (builtState 0x80000003) 1).1.used - 1 :=
  @C4_unmap_parents_prunes 0 ⟨0, 0x3000, 1⟩ (builtState 0x80000003)
    ((unmap_phys_inner 0 ⟨0, 0x4000, 0⟩ true (builtState 0x80000003) 1).1)
    0 ⟨0, 0x4000, 0⟩ (0x80000000, 3) 1
    (by decide) (by decide) (by decide) (by rfl) (by decide)

end DragonOS
